import Mathlib

/-!
Shallow embedding of `tf2rl/policies/tfp_categorical_actor.py`.

Real-valued tensors are modelled over `ℝ`; a batch of states is a
`List (List ℝ)` (one row vector per state).  Keras `Dense` layers are affine
maps followed by an activation; the `softmax` activation is
`exp xᵢ / Σⱼ exp xⱼ` across the output row.  Stochastic sampling is made
explicit: the underlying uniform draw (one per batch row) is an argument.
Fallible Python operations (attribute lookups that can raise
`AttributeError`, subscripting a tfp `Distribution` object, which raises)
return `Except PyError`.
-/

namespace TF2RL

/-- Kinds of Python exceptions that the embedded methods can raise. -/
inductive PyError
  | attributeError (attr : String)
  | typeError (msg : String)
  deriving DecidableEq

/-- Message for subscripting a tfp `Distribution` with a string key:
`Distribution.__getitem__` implements batch slicing only, so a string key
such as the one in `dist["prob"]` (lines 43 and 77-84 of the source) raises. -/
def subscriptErrMsg : String := "string key is not a valid Distribution slice"

/-- Weights of one keras `Dense` layer: `kernel i j` connects input
coordinate `i` to output coordinate `j`; `bias j` is the additive term of
output `j`.  In the Python code these are initialised by keras; here they are
explicit parameters. -/
structure LayerParams where
  kernel : ℕ → ℕ → ℝ
  bias : ℕ → ℝ

/-- Keras activation of a `Dense` layer: an arbitrary elementwise function
(covers the constructor's `hidden_activation` argument, e.g. relu), the
identity (`"linear"`), or `"softmax"` applied across the output row. -/
inductive Activation
  | elemwise (f : ℝ → ℝ)
  | linear
  | softmax

/-- One keras `Dense(units, activation=...)` layer. -/
structure Dense where
  units : ℕ
  params : LayerParams
  activation : Activation

/-- Dot product of an input row with one kernel column. -/
noncomputable def dotW (xs : List ℝ) (w : ℕ → ℝ) : ℝ :=
  (xs.enum.map (fun p => p.2 * w p.1)).sum

/-- The affine part of a `Dense` layer: output `j` is
`⟨input, kernel column j⟩ + bias j`, for `j < n`. -/
noncomputable def affine (n : ℕ) (p : LayerParams) (s : List ℝ) : List ℝ :=
  (List.range n).map (fun j => dotW s (fun i => p.kernel i j) + p.bias j)

/-- Softmax across a row: `exp xᵢ / Σⱼ exp xⱼ`. -/
noncomputable def softmaxList (v : List ℝ) : List ℝ :=
  v.map (fun x => Real.exp x / (v.map Real.exp).sum)

/-- The relu activation, the default value of `hidden_activation`. -/
noncomputable def relu (x : ℝ) : ℝ := max x 0

/-- Applying a `Dense` layer to one input row. -/
noncomputable def Dense.apply (l : Dense) (s : List ℝ) : List ℝ :=
  match l.activation with
  | .elemwise f => (affine l.units l.params s).map f
  | .linear => affine l.units l.params s
  | .softmax => softmaxList (affine l.units l.params s)

/-- A `tfp.distributions.Categorical` built from explicit probabilities
(line 38 of the source): one probability row per batch element. -/
structure Categorical where
  probs : List (List ℝ)

/-- Per-row mean of a categorical distribution: the probability-weighted
average of the category indices, `Σᵢ i * pᵢ`.  This is the mathematical
meaning of `Distribution.mean`; note that tfp's `Categorical` leaves `_mean`
unimplemented, so the actual library call `dist.mean()` on line 55 raises
`NotImplementedError` — we model the charitable reading, under which the
greedy-path claims are easiest to satisfy. -/
noncomputable def meanRow (ps : List ℝ) : ℝ :=
  (ps.enum.map (fun p => (p.1 : ℝ) * p.2)).sum

/-- Batched `dist.mean()`. -/
noncomputable def Categorical.mean (d : Categorical) : List ℝ :=
  d.probs.map meanRow

/-- Inverse-CDF sampling of one categorical row from a uniform draw `u`:
the first index whose cumulative probability exceeds `u`.  Like
`tf.random.categorical`, it always returns an index of the (nonempty) row. -/
noncomputable def sampleRow : List ℝ → ℝ → ℕ
  | [], _ => 0
  | [_], _ => 0
  | p :: q :: rest, u => if u < p then 0 else sampleRow (q :: rest) (u - p) + 1

/-- Batched `dist.sample()`: one uniform draw per row; the sampled indices
are returned as reals (the action tensor). -/
noncomputable def Categorical.sample (d : Categorical) (us : List ℝ) : List ℝ :=
  List.zipWith (fun ps u => ((sampleRow ps u : ℕ) : ℝ)) d.probs us

/-- Per-row `dist.prob(value)`: category probabilities are gathered by
integer index, so a value that is a natural number `i` below the row length
yields `pᵢ`, and any other value (negative, fractional, or out of range)
fails, as `tf.gather` does. -/
noncomputable def probRow : List ℝ → ℝ → Option ℝ
  | [], _ => none
  | p :: rest, x => if x = 0 then some p else probRow rest (x - 1)

/-- Batched `dist.prob(actions)` (line 58 of the source). -/
noncomputable def Categorical.prob (d : Categorical) (actions : List ℝ) : List (Option ℝ) :=
  List.zipWith probRow d.probs actions

/-- Subscripting a tfp `Categorical` object, `dist[key]`: tfp
`Distribution.__getitem__` implements batch slicing only, a string key is
not a valid slice, so it raises whatever the key and the distribution. -/
def Categorical.getitem (_ : Categorical) (_ : String) : Except PyError (List (List ℝ)) :=
  .error (.typeError subscriptErrMsg)

/-- The attribute names bound on a `CategoricalActor` instance: the fields
assigned in `__init__` (lines 11, 18, 19) and the methods defined by the
class body (lines 24, 42, 45, 62, 66).  Neither `dist` nor
`_compute_feature` nor `prob` is ever bound. -/
def categoricalActorAttrs : List String :=
  ["action_dim", "base_layers", "out_prob",
   "_compute_dist", "compute_prob", "call", "compute_entropy", "compute_log_probs"]

/-- The attribute names bound on a `CategoricalActorCritic` instance: `v`
(line 92), the overriding `call` (line 95), and everything inherited. -/
def categoricalActorCriticAttrs : List String :=
  "v" :: categoricalActorAttrs

/-- Python attribute lookup on a `CategoricalActorCritic` instance. -/
def getattrCritic (name : String) : Except PyError Unit :=
  if name ∈ categoricalActorCriticAttrs then .ok () else .error (.attributeError name)

/-- Python attribute lookup on a `CategoricalActor` instance. -/
def getattrActor (name : String) : Except PyError Unit :=
  if name ∈ categoricalActorAttrs then .ok () else .error (.attributeError name)

/-- A constructed `CategoricalActor`: the fields assigned by `__init__`
(lines 10-19). -/
structure CategoricalActor where
  action_dim : ℕ
  base_layers : List Dense
  out_prob : Dense

/-- The `CategoricalActor.__init__` wiring (lines 8-19): one hidden
`Dense(u, activation=hidden_activation)` per entry of `units`, in order,
and `out_prob = Dense(action_dim, activation='softmax')`.  Keras's random
weight initialisation is made explicit: `hiddenParams k` supplies the
weights of the `k`-th hidden layer and `outParams` those of the output
layer.  (The dummy forward pass of lines 21-22 builds the weights and, for
this class, succeeds; it is modelled for the subclass, where it fails.) -/
noncomputable def mkCategoricalActor (action_dim : ℕ) (units : List ℕ)
    (hiddenActivation : ℝ → ℝ) (hiddenParams : ℕ → LayerParams)
    (outParams : LayerParams) : CategoricalActor :=
  ⟨action_dim,
   units.enum.map (fun p => ⟨p.2, hiddenParams p.1, .elemwise hiddenActivation⟩),
   ⟨action_dim, outParams, .softmax⟩⟩

/-- Lines 24-40: `features = states`; the `for` loop applies each hidden
layer to the whole batch in order; `probs = self.out_prob(features)`;
`dist = tfp.distributions.Categorical(probs)`. -/
noncomputable def CategoricalActor._compute_dist (a : CategoricalActor)
    (states : List (List ℝ)) : Categorical :=
  let features := a.base_layers.foldl (fun f l => f.map l.apply) states
  ⟨features.map a.out_prob.apply⟩

/-- Lines 42-43: `return self._compute_dist(states)["prob"]` — subscripts
the tfp `Categorical` object with the string `"prob"`. -/
noncomputable def CategoricalActor.compute_prob (a : CategoricalActor)
    (states : List (List ℝ)) : Except PyError (List (List ℝ)) :=
  (a._compute_dist states).getitem "prob"

/-- Lines 45-60: `dist.mean()` when `test` else `dist.sample()`, then
`log_prob = dist.prob(action)` (the probability, despite the name), and
`return action, log_prob`.  `us` is the batch of uniform draws consumed by
the sampler when `test=False`. -/
noncomputable def CategoricalActor.call (a : CategoricalActor)
    (states : List (List ℝ)) (test : Bool) (us : List ℝ) :
    List ℝ × List (Option ℝ) :=
  let dist := a._compute_dist states
  let action := if test then dist.mean else dist.sample us
  (action, dist.prob action)

/-- Lines 66-86.  `param = self._compute_dist(states)` is a tfp
`Categorical`; the `tf.one_hot` of lines 74-76 succeeds; then the predicate
of the first `tf.cond` (line 78) evaluates `param["prob"]`, subscripting the
distribution object, which raises.  Were that subscript to succeed, line 85
would read `self.dist`, an attribute that is never bound. -/
noncomputable def CategoricalActor.compute_log_probs (a : CategoricalActor)
    (states : List (List ℝ)) (_actions : List ℝ) : Except PyError (List ℝ) :=
  let param := a._compute_dist states
  match param.getitem "prob" with
  | .error e => .error e
  | .ok _ =>
    match getattrActor "dist" with
    | .error e => .error e
    | .ok _ => .error (.typeError "unreachable: both lookups above fail")

/-- Lines 95-108, `CategoricalActorCritic.call`.  The first statement,
`features = self._compute_feature(states)`, looks up an attribute that
exists nowhere in the class hierarchy and raises `AttributeError`; the
later lines would likewise look up the absent `self.prob` (line 97) and
`self.dist` (lines 102, 104); `v = self.v(features)` (line 106) is never
reached.  The arguments are kept to mirror the Python signature. -/
def CategoricalActorCritic.call (_states : List (List ℝ)) (_test : Bool) :
    Except PyError (List ℝ × List ℝ × List (List ℝ)) :=
  match getattrCritic "_compute_feature" with
  | .error e => .error e
  | .ok _ =>
    match getattrCritic "prob" with
    | .error e => .error e
    | .ok _ =>
      match getattrCritic "dist" with
      | .error e => .error e
      | .ok _ => .error (.typeError "unreachable: the lookups above fail")

/-- Lines 90-93, `CategoricalActorCritic.__init__`: after
`tf.keras.Model.__init__` and `self.v = Dense(1, activation="linear")`,
`super().__init__` runs `CategoricalActor.__init__`, whose dummy forward
pass `self(zeros(shape=(1,)+state_shape))` (lines 21-22) dynamically
dispatches to the overridden `CategoricalActorCritic.call` above.
`state_dim` is the (flattened) state dimension. -/
def CategoricalActorCritic.construct (state_dim : ℕ) (_action_dim : ℕ)
    (_units : List ℕ) : Except PyError Unit :=
  match CategoricalActorCritic.call [List.replicate state_dim 0] false with
  | .error e => .error e
  | .ok _ => .ok ()

/-! ## Concrete test instance

A minimal constructed actor used to evaluate the methods at explicit
inputs: `action_dim = 2`, no hidden layers, all weights and biases zero.
On the one-dimensional zero state the output logits are `(0, 0)` and the
softmax probabilities are exactly `(1/2, 1/2)`. -/

/-- All-zero layer weights. -/
noncomputable def zeroParams : LayerParams := ⟨fun _ _ => 0, fun _ => 0⟩

/-- The concrete actor: `CategoricalActor(state_shape=(1,), action_dim=2,
units=())` with zero-initialised weights. -/
noncomputable def actor2 : CategoricalActor :=
  mkCategoricalActor 2 [] relu (fun _ => zeroParams) zeroParams

theorem actor2_dist : actor2._compute_dist [[(0 : ℝ)]] = ⟨[[1 / 2, 1 / 2]]⟩ := by
  simp only [actor2, zeroParams, mkCategoricalActor, CategoricalActor._compute_dist, Dense.apply,
    softmaxList, affine, dotW, List.enum, List.enumFrom, List.map_nil, List.foldl_nil,
    List.range_succ, List.range_zero, List.map_cons, List.map_append, List.sum_cons,
    List.sum_nil, List.nil_append, List.cons_append, Real.exp_zero, List.map_map]
  norm_num

/-! ## Spec-side forward pass and supporting lemmas -/

/-- Spec-side hidden pipeline, written from the claim's words: one dense
layer per entry of `units`, applied to the state in order, each consisting
of the affine map with that layer's weights followed by the elementwise
hidden activation.  `k` is the index of the next layer's weights. -/
noncomputable def specHidden (φ : ℝ → ℝ) (hp : ℕ → LayerParams) :
    ℕ → List ℕ → List ℝ → List ℝ
  | _, [], s => s
  | k, u :: us, s => specHidden φ hp (k + 1) us ((affine u (hp k) s).map φ)

/-- Spec-side forward pass for one state: the hidden pipeline followed by
the softmax output layer of width `action_dim`. -/
noncomputable def specForward (ad : ℕ) (units : List ℕ) (φ : ℝ → ℝ)
    (hp : ℕ → LayerParams) (op : LayerParams) (s : List ℝ) : List ℝ :=
  softmaxList (affine ad op (specHidden φ hp 0 units s))

theorem affine_length (n : ℕ) (p : LayerParams) (s : List ℝ) :
    (affine n p s).length = n := by
  simp [affine]

theorem softmaxList_length (v : List ℝ) : (softmaxList v).length = v.length := by
  simp [softmaxList]

theorem softmaxList_nonneg (v : List ℝ) : ∀ p ∈ softmaxList v, 0 ≤ p := by
  intro p hp
  simp only [softmaxList, List.mem_map] at hp
  obtain ⟨x, -, rfl⟩ := hp
  refine div_nonneg (Real.exp_pos x).le (List.sum_nonneg ?_)
  intro y hy
  simp only [List.mem_map] at hy
  obtain ⟨z, -, rfl⟩ := hy
  exact (Real.exp_pos z).le

theorem sum_map_div (l : List ℝ) (f : ℝ → ℝ) (c : ℝ) :
    (l.map (fun x => f x / c)).sum = (l.map f).sum / c := by
  induction l with
  | nil => simp
  | cons a t ih => simp [ih, add_div]

theorem exp_sum_pos (v : List ℝ) (h : v ≠ []) : 0 < (v.map Real.exp).sum := by
  refine List.sum_pos _ ?_ ?_
  · intro x hx
    simp only [List.mem_map] at hx
    obtain ⟨z, -, rfl⟩ := hx
    exact Real.exp_pos z
  · simpa using h

theorem softmaxList_sum (v : List ℝ) (h : v ≠ []) : (softmaxList v).sum = 1 := by
  rw [softmaxList, sum_map_div]
  exact div_self (exp_sum_pos v h).ne'

/-- Every probability row of `_compute_dist` on an actor built by the
constructor is the softmax image of the output layer's affine map. -/
theorem mem_compute_dist_probs (ad : ℕ) (units : List ℕ) (φ : ℝ → ℝ)
    (hp : ℕ → LayerParams) (op : LayerParams) (states : List (List ℝ)) :
    ∀ row ∈ ((mkCategoricalActor ad units φ hp op)._compute_dist states).probs,
      ∃ s, row = softmaxList (affine ad op s) := by
  intro row hrow
  simp only [CategoricalActor._compute_dist, mkCategoricalActor, List.mem_map] at hrow
  obtain ⟨s, -, rfl⟩ := hrow
  exact ⟨s, rfl⟩

/-- Applying the hidden layers to a whole batch, as the source's `for` loop
does, is the same as applying them to each state separately. -/
theorem foldl_batch_eq_map (ls : List Dense) (states : List (List ℝ)) :
    ls.foldl (fun f l => f.map l.apply) states
      = states.map (fun s => ls.foldl (fun v l => l.apply v) s) := by
  induction ls generalizing states with
  | nil => simp
  | cons l t ih =>
    simp only [List.foldl_cons, ih, List.map_map]
    rfl

/-- Folding the constructed hidden layers over one state agrees with the
spec-side hidden pipeline. -/
theorem foldl_hidden_eq_specHidden (φ : ℝ → ℝ) (hp : ℕ → LayerParams)
    (units : List ℕ) (k : ℕ) (s : List ℝ) :
    ((units.enumFrom k).map
        (fun p => (⟨p.2, hp p.1, .elemwise φ⟩ : Dense))).foldl
        (fun v l => l.apply v) s
      = specHidden φ hp k units s := by
  induction units generalizing k s with
  | nil => rfl
  | cons u us ih =>
    simp only [List.enumFrom, List.map_cons, List.foldl_cons, specHidden]
    exact ih (k + 1) _

/-- Decomposing membership in a `zipWith`. -/
theorem exists_of_mem_zipWith {α β γ : Type} {f : α → β → γ} :
    ∀ {l1 : List α} {l2 : List β} {c : γ}, c ∈ List.zipWith f l1 l2 →
      ∃ a b, a ∈ l1 ∧ b ∈ l2 ∧ c = f a b := by
  intro l1
  induction l1 with
  | nil => intro l2 c hc; simp at hc
  | cons a t ih =>
    intro l2 c hc
    cases l2 with
    | nil => simp at hc
    | cons b t2 =>
      simp only [List.zipWith_cons_cons, List.mem_cons] at hc
      rcases hc with rfl | hc
      · exact ⟨a, b, by simp, by simp, rfl⟩
      · obtain ⟨x, y, hx, hy, rfl⟩ := ih hc
        exact ⟨x, y, by simp [hx], by simp [hy], rfl⟩

/-- The sampler always returns an index of a nonempty probability row. -/
theorem sampleRow_lt_length (ps : List ℝ) (u : ℝ) (h : ps ≠ []) :
    sampleRow ps u < ps.length := by
  induction ps generalizing u with
  | nil => exact absurd rfl h
  | cons p rest ih =>
    cases rest with
    | nil => simp [sampleRow]
    | cons q rest2 =>
      rw [sampleRow]
      split
      · simp
      · have hlt := ih (u - p) (by simp)
        simp only [List.length_cons] at hlt ⊢
        omega

/-! ## Claim theorems -/

/-- C1: the claim says the second value returned by `call` is the natural
logarithm of the selected action's probability.  At the concrete actor with
uniform probabilities `(1/2, 1/2)` and the sampled action `0`, the code
returns `dist.prob(action) = 1/2` — the probability itself — while the
logarithm of that probability, `log (1/2)`, is negative, hence different:
the code contradicts its own docstring (`:return log_probs`). -/
theorem call_returns_prob_not_logprob :
    CategoricalActor.call actor2 [[0]] false [0] = ([0], [some (1 / 2)]) ∧
      Real.log (1 / 2) ≠ ((1 : ℝ) / 2) := by
  constructor
  · norm_num [CategoricalActor.call, actor2_dist, Categorical.sample, Categorical.prob,
      sampleRow, probRow]
  · have h := Real.log_neg (by norm_num : (0 : ℝ) < 1 / 2) (by norm_num : (1 : ℝ) / 2 < 1)
    intro hc
    rw [hc] at h
    norm_num at h

/-- C2: the claim says `call(states, test=True)` returns an argmax index of
the probability row.  On the uniform two-action distribution the code
returns `dist.mean() = 0·(1/2) + 1·(1/2) = 1/2`, which is not an index of
the row at all (the only indices are `0` and `1`), let alone an argmax; the
sibling class uses `tf.math.argmax` for the same branch, confirming the
greedy intent. -/
theorem greedy_call_returns_mean_not_argmax :
    (CategoricalActor.call actor2 [[0]] true [0]).1 = [(1 : ℝ) / 2] ∧
      ∀ i : Fin 2, ((i.val : ℝ) ≠ 1 / 2) := by
  constructor
  · norm_num [CategoricalActor.call, actor2_dist, Categorical.mean, meanRow,
      List.enum, List.enumFrom]
  · intro i
    fin_cases i <;> norm_num

/-- C3: the claim says `compute_prob` succeeds and returns the probability
vector.  The code subscripts the tfp `Categorical` returned by
`_compute_dist` with the string `"prob"`, which distribution objects do not
support, so every call raises instead of returning. -/
theorem compute_prob_always_raises (a : CategoricalActor) (states : List (List ℝ)) :
    CategoricalActor.compute_prob a states
      = Except.error (PyError.typeError subscriptErrMsg) := rfl

/-- C4: the claim says `CategoricalActorCritic.call` returns a triple
`(action, log_prob, v)`.  Its first statement reads the attribute
`_compute_feature`, which no class in the hierarchy defines, so every call
raises `AttributeError` and no triple is ever produced. -/
theorem critic_call_always_raises (states : List (List ℝ)) (test : Bool) :
    CategoricalActorCritic.call states test
      = Except.error (PyError.attributeError "_compute_feature") := rfl

/-- C7: the greedy path is deterministic — `call(states, test=True)` does
not consume the random draw, so two calls with identical states and weights
return identical actions and identical second components. -/
theorem greedy_call_deterministic (a : CategoricalActor) (states : List (List ℝ))
    (u1 u2 : List ℝ) :
    CategoricalActor.call a states true u1 = CategoricalActor.call a states true u2 := rfl

/-- C9 counterexample: `compute_log_probs` does fail on every input, but
not with the claimed `AttributeError` on `self.dist`: the `tf.cond`
predicate evaluates `param["prob"]` first, and subscripting the tfp
`Categorical` with a string raises before `self.dist` is ever read. -/
theorem compute_log_probs_fails_before_dist_read :
    CategoricalActor.compute_log_probs actor2 [[0]] [0]
        = Except.error (PyError.typeError subscriptErrMsg) ∧
      PyError.typeError subscriptErrMsg ≠ PyError.attributeError "dist" :=
  ⟨rfl, by decide⟩

/-- C9 amended: `compute_log_probs` fails on every pair of inputs, raising
the string-subscript error from `param["prob"]`; the attribute `dist` is
indeed never bound on the class, but execution never reaches the line that
would read it. -/
theorem compute_log_probs_always_raises_subscript_error
    (a : CategoricalActor) (states : List (List ℝ)) (actions : List ℝ) :
    "dist" ∉ categoricalActorAttrs ∧
      CategoricalActor.compute_log_probs a states actions
        = Except.error (PyError.typeError subscriptErrMsg) :=
  ⟨by decide, rfl⟩

/-- C10: constructing a `CategoricalActorCritic` always fails: none of
`_compute_feature`, `prob`, `dist` is an attribute of the class hierarchy,
and the parent constructor's dummy forward pass dispatches to the
overridden `call`, whose first attribute lookup raises `AttributeError`. -/
theorem critic_construction_always_fails :
    ("_compute_feature" ∉ categoricalActorCriticAttrs ∧
        "prob" ∉ categoricalActorCriticAttrs ∧
        "dist" ∉ categoricalActorCriticAttrs) ∧
      ∀ (state_dim action_dim : ℕ) (units : List ℕ),
        CategoricalActorCritic.construct state_dim action_dim units
          = Except.error (PyError.attributeError "_compute_feature") := by
  refine ⟨by decide, ?_⟩
  intro sd ad us
  rfl

/-- C5: on an actor built by the constructor, `_compute_dist` computes, for
each state of the batch, exactly the spec-side pipeline — the hidden dense
layers applied in order (one per entry of `units`, each with the given
elementwise hidden activation) followed by the softmax output layer — and
every resulting probability row has exactly `action_dim` entries, so the
categorical distribution is over exactly `action_dim` actions. -/
theorem compute_dist_matches_spec_pipeline (ad : ℕ) (units : List ℕ) (φ : ℝ → ℝ)
    (hp : ℕ → LayerParams) (op : LayerParams) (states : List (List ℝ)) :
    ((mkCategoricalActor ad units φ hp op)._compute_dist states).probs
        = states.map (specForward ad units φ hp op) ∧
      ∀ row ∈ ((mkCategoricalActor ad units φ hp op)._compute_dist states).probs,
        row.length = ad := by
  have hpoint : ∀ s : List ℝ,
      Dense.apply ⟨ad, op, Activation.softmax⟩
        ((units.enum.map
            (fun p => (⟨p.2, hp p.1, Activation.elemwise φ⟩ : Dense))).foldl
          (fun v l => l.apply v) s)
        = specForward ad units φ hp op s := by
    intro s
    rw [specForward, ← foldl_hidden_eq_specHidden φ hp units 0 s]
    rfl
  refine ⟨?_, ?_⟩
  · simp only [CategoricalActor._compute_dist, mkCategoricalActor]
    rw [foldl_batch_eq_map, List.map_map]
    have hfun : (Dense.apply ⟨ad, op, Activation.softmax⟩ ∘ fun s =>
        (units.enum.map
            (fun p => (⟨p.2, hp p.1, Activation.elemwise φ⟩ : Dense))).foldl
          (fun v l => l.apply v) s)
        = specForward ad units φ hp op := funext fun s => hpoint s
    rw [hfun]
  · intro row hrow
    obtain ⟨s, rfl⟩ := mem_compute_dist_probs ad units φ hp op states row hrow
    rw [softmaxList_length, affine_length]

/-- C8: every probability row produced by `_compute_dist` on a constructed
actor with positive `action_dim` is a well-formed categorical distribution:
it has exactly `action_dim` entries, each nonnegative, summing to 1. -/
theorem compute_dist_rows_are_distributions (ad : ℕ) (units : List ℕ) (φ : ℝ → ℝ)
    (hp : ℕ → LayerParams) (op : LayerParams) (states : List (List ℝ))
    (h : 0 < ad) :
    ∀ row ∈ ((mkCategoricalActor ad units φ hp op)._compute_dist states).probs,
      row.length = ad ∧ (∀ p ∈ row, 0 ≤ p) ∧ row.sum = 1 := by
  intro row hrow
  obtain ⟨s, rfl⟩ := mem_compute_dist_probs ad units φ hp op states row hrow
  have hne : affine ad op s ≠ [] := by
    intro hc
    have hl := affine_length ad op s
    rw [hc] at hl
    simp only [List.length_nil] at hl
    omega
  exact ⟨by rw [softmaxList_length, affine_length],
    softmaxList_nonneg _, softmaxList_sum _ hne⟩

/-- C8 witness: the concrete two-action zero-weight actor on the zero
state. -/
theorem compute_dist_rows_are_distributions_witness :
    0 < 2 ∧ ∀ row ∈ ((mkCategoricalActor 2 [] relu (fun _ => zeroParams)
        zeroParams)._compute_dist [[(0 : ℝ)]]).probs,
      row.length = 2 ∧ (∀ p ∈ row, 0 ≤ p) ∧ row.sum = 1 :=
  ⟨by norm_num,
    compute_dist_rows_are_distributions 2 [] relu (fun _ => zeroParams)
      zeroParams [[(0 : ℝ)]] (by norm_num)⟩

/-- C6 counterexample: with `test=True` the action returned for the uniform
two-action distribution is `dist.mean() = 1/2`, which is not (the cast of)
any natural number, so in particular not a member of the action set. -/
theorem greedy_action_is_not_a_category_index :
    (CategoricalActor.call actor2 [[0]] true [0]).1 = [(1 : ℝ) / 2] ∧
      ∀ n : ℕ, ((n : ℝ) ≠ 1 / 2) := by
  constructor
  · norm_num [CategoricalActor.call, actor2_dist, Categorical.mean, meanRow,
      List.enum, List.enumFrom]
  · intro n hn
    have h2 : ((2 * n : ℕ) : ℝ) = ((1 : ℕ) : ℝ) := by push_cast; linarith
    have h3 : 2 * n = 1 := Nat.cast_injective h2
    omega

/-- C6 amended: every action returned by the sampling path
(`test=False`) of `call` on a constructed actor with positive `action_dim`
is the cast of an integer in the action set, i.e. some `n < action_dim`;
the `test=True` path instead returns the distribution's per-state mean,
which need not be one (see the counterexample). -/
theorem sampled_actions_are_category_indices (ad : ℕ) (units : List ℕ) (φ : ℝ → ℝ)
    (hp : ℕ → LayerParams) (op : LayerParams) (states : List (List ℝ)) (us : List ℝ)
    (h : 0 < ad) :
    ∀ x ∈ (CategoricalActor.call (mkCategoricalActor ad units φ hp op)
        states false us).1,
      ∃ n : ℕ, n < ad ∧ (n : ℝ) = x := by
  intro x hx
  simp only [CategoricalActor.call, Categorical.sample, Bool.false_eq_true,
    if_false] at hx
  obtain ⟨ps, u, hps, -, rfl⟩ := exists_of_mem_zipWith hx
  refine ⟨sampleRow ps u, ?_, rfl⟩
  obtain ⟨s, rfl⟩ := mem_compute_dist_probs ad units φ hp op states ps hps
  have hlen : (softmaxList (affine ad op s)).length = ad := by
    rw [softmaxList_length, affine_length]
  have hne : softmaxList (affine ad op s) ≠ [] := by
    intro hc
    rw [hc] at hlen
    simp only [List.length_nil] at hlen
    omega
  have hlt := sampleRow_lt_length _ u hne
  rw [hlen] at hlt
  exact hlt

/-- C6 amended witness: sampling on the concrete two-action zero-weight
actor. -/
theorem sampled_actions_are_category_indices_witness :
    0 < 2 ∧ ∀ x ∈ (CategoricalActor.call (mkCategoricalActor 2 [] relu
        (fun _ => zeroParams) zeroParams) [[(0 : ℝ)]] false [0]).1,
      ∃ n : ℕ, n < 2 ∧ (n : ℝ) = x :=
  ⟨by norm_num,
    sampled_actions_are_category_indices 2 [] relu (fun _ => zeroParams)
      zeroParams [[(0 : ℝ)]] [0] (by norm_num)⟩

end TF2RL
